import Mathlib

/-!
Shallow embedding of the trading-bot signal pipeline
(strategy engine, risk manager, executor, cadence, forecaster).

Numeric values held in Python floats are modelled as rationals (ℚ);
database rows are modelled as Lean structures, per-row processing as
pure functions, and the executor's mutable circuit-breaker state as
explicit state passing over a list of broker-call outcomes.
All definitions are transcribed from the repository sources:
  src/execution/risk_manager.py
  src/execution/alpaca_executor.py
  src/strategy/trend_following.py
  src/shared/smart_sleep.py
  src/processor/predictive_engine.py
-/

namespace TradingBot

/-! ### String containment, mirroring Python's `needle in haystack` -/

/-- Does `hay` start with `needle` (character-list version)? -/
def matchesHead : List Char → List Char → Bool
  | [], _ => true
  | _ :: _, [] => false
  | n :: ns, h :: hs => n == h && matchesHead ns hs

/-- Does the character list contain `needle` as a contiguous subsequence? -/
def containsSeq (needle : List Char) : List Char → Bool
  | [] => needle.isEmpty
  | h :: t => matchesHead needle (h :: t) || containsSeq needle t

/-- Python's `needle in hay` on strings. -/
def strContains (hay needle : String) : Bool :=
  containsSeq needle.toList hay.toList

/-! ### Risk manager: `src/execution/risk_manager.py` -/

/-- `RiskConfig` dataclass: account size, per-trade risk fraction,
maximum PENDING-signal age in minutes. -/
structure RiskConfig where
  account_size : ℚ
  risk_pct : ℚ
  max_signal_age_minutes : ℚ
deriving DecidableEq, Repr

/-- Defaults from `RiskConfig.from_env`: ACCOUNT_SIZE 100000, RISK_PCT 0.01,
MAX_SIGNAL_AGE_MINUTES 60. -/
def defaultRiskConfig : RiskConfig :=
  { account_size := 100000, risk_pct := 1/100, max_signal_age_minutes := 60 }

/-- `calculate_position_size`: 0 when `close_price <= 0`, otherwise
`floor(account_size * risk_pct / close_price)` (`Rat.floor`). -/
def calculate_position_size (close_price account_size risk_pct : ℚ) : ℤ :=
  if close_price ≤ 0 then 0
  else
    let target_position_value := account_size * risk_pct
    Rat.floor (target_position_value / close_price)

/-- Per-signal decision of `RiskManager.process_pending_signals`. -/
inductive SigDecision where
  /-- signal updated to status EXPIRED -/
  | expired : SigDecision
  /-- signal updated to status SIZED with the given size -/
  | sized (n : ℤ) : SigDecision
  /-- signal left in status PENDING -/
  | pending : SigDecision
deriving DecidableEq, Repr

/-- One iteration of the loop body of `RiskManager.process_pending_signals`
for a single PENDING signal.  `now` and `sigTime` are wall-clock instants in
seconds; `close` is the most recent 5m close for the symbol (none when no
market data row exists).  The staleness check runs first, then the exit
branch (no price lookup), then entry sizing. -/
def decideSignal (cfg : RiskConfig) (now sigTime : ℚ) (signal_type : String)
    (close : Option ℚ) : SigDecision :=
  let age_minutes := (now - sigTime) / 60
  if age_minutes > cfg.max_signal_age_minutes then .expired
  else if strContains signal_type "EXIT" then .sized 0
  else
    match close with
    | none => .pending
    | some c =>
      let size := calculate_position_size c cfg.account_size cfg.risk_pct
      if size > 0 then .sized size else .pending

/-! ### Strategy engine: `src/strategy/trend_following.py` -/

/-- `KINGS_LIST` from `src/shared/config.py`. -/
def KINGS_LIST : List String :=
  ["AAPL", "MSFT", "GOOGL", "AMZN", "NVDA", "TSLA", "META"]

/-- Market regime from `get_macro_regime`. -/
inductive Regime where
  | BULL : Regime
  | BEAR : Regime
deriving DecidableEq, Repr

/-- `get_macro_regime`: the most recent SPY 5m joined row as
`(close, sma_50)`; `none` when no row exists.  BEAR only when the row
exists, its `sma_50` is non-null, and `close < sma_50`; otherwise BULL. -/
def get_macro_regime (spyRow : Option (ℚ × Option ℚ)) : Regime :=
  match spyRow with
  | some (close, some sma_50) => if close < sma_50 then .BEAR else .BULL
  | some (_, none) => .BULL
  | none => .BULL

/-- One candidate row of the entry query in `run_strategy`: market data
joined to indicators and the AI prediction; every numeric field may be
null. -/
structure CandidateRow where
  symbol : String
  timestamp : String
  close : Option ℚ
  volume : Option ℚ
  sma_200 : Option ℚ
  rsi_14 : Option ℚ
  vwap : Option ℚ
  atr_14 : Option ℚ
  volume_sma_20 : Option ℚ
  ensemble_pct_change : Option ℚ
deriving DecidableEq, Repr

/-- The three-tier evaluation of `run_strategy` on the unwrapped fields:
Tier 1 VWAP_SCALP, else Tier 2 DEEP_VALUE_BUY, else Tier 3 TREND_BUY,
else no signal. -/
def evalTiers (macro_regime : Regime) (symbol : String)
    (close volume sma_200 rsi vwap vol_sma pred_pct : ℚ) : Option String :=
  if pred_pct > 3/10 ∧ volume > vol_sma ∧ close > vwap then
    some "VWAP_SCALP"
  else if symbol ∈ KINGS_LIST ∧ close < sma_200 ∧ rsi < 30 ∧ pred_pct > 1/2 then
    some "DEEP_VALUE_BUY"
  else if macro_regime = .BULL ∧ close > sma_200 ∧ 35 < rsi ∧ rsi < 55 ∧
      pred_pct > 1/2 ∧ volume > vol_sma then
    some "TREND_BUY"
  else
    none

/-- The missing-data guard of `run_strategy`
(`if None in [close, volume, sma_200, rsi, vwap, atr, vol_sma, pred_pct]:
continue`): `some` of the unwrapped fields when all are present, `none`
otherwise. -/
def rowFields (row : CandidateRow) :
    Option (ℚ × ℚ × ℚ × ℚ × ℚ × ℚ × ℚ × ℚ) :=
  match row.close, row.volume, row.sma_200, row.rsi_14, row.vwap,
      row.atr_14, row.volume_sma_20, row.ensemble_pct_change with
  | some close, some volume, some sma_200, some rsi, some vwap, some atr,
      some vol_sma, some pred_pct =>
    some (close, volume, sma_200, rsi, vwap, atr, vol_sma, pred_pct)
  | _, _, _, _, _, _, _, _ => none

/-- Candidate evaluation including the missing-data guard: a row with any
required field null produces no signal; `vwap` feeds Tier 1, `atr_14` is
only required present (it is copied into the signal, not compared). -/
def evalCandidate (macro_regime : Regime) (row : CandidateRow) : Option String :=
  match rowFields row with
  | some (close, volume, sma_200, rsi, vwap, _atr, vol_sma, pred_pct) =>
    evalTiers macro_regime row.symbol close volume sma_200 rsi vwap vol_sma pred_pct
  | none => none

/-- A row of the `trade_signals` table as inserted/updated by the pipeline. -/
structure SignalRow where
  symbol : String
  timestamp : String
  signal_type : String
  status : String
  size : Option ℚ
  stop_loss : Option ℚ
  atr : Option ℚ
deriving DecidableEq, Repr

/-- The INSERT of `run_strategy` on an entry match:
`(symbol, timestamp, signal_type, 'PENDING', NULL, NULL, atr)`. -/
def mkEntrySignal (row : CandidateRow) (signal_type : String) : SignalRow :=
  { symbol := row.symbol, timestamp := row.timestamp,
    signal_type := signal_type, status := "PENDING",
    size := none, stop_loss := none, atr := row.atr_14 }

/-- Dedup query of `run_strategy`: does any signal row with this
(symbol, timestamp) exist? -/
def hasSignalAt (db : List SignalRow) (symbol timestamp : String) : Bool :=
  db.any (fun r => r.symbol == symbol && r.timestamp == timestamp)

/-- Loop body of `run_strategy` for one candidate: skip when data is
missing, skip when a signal row already exists for (symbol, timestamp),
otherwise evaluate the tiers and append the entry signal on a match. -/
def processCandidate (macro_regime : Regime) (db : List SignalRow)
    (row : CandidateRow) : List SignalRow :=
  match rowFields row with
  | some _ =>
    if hasSignalAt db row.symbol row.timestamp then db
    else
      match evalCandidate macro_regime row with
      | some signal_type => db ++ [mkEntrySignal row signal_type]
      | none => db
  | none => db

/-- The entry half of one strategy cycle over the candidate list. -/
def runEntryCycle (macro_regime : Regime) (db : List SignalRow)
    (candidates : List CandidateRow) : List SignalRow :=
  candidates.foldl (processCandidate macro_regime) db

/-- One open broker position with its joined latest-indicator row, as seen
by `evaluate_exits`: `close`, `ensemble_pct_change` and the position's
`unrealized_plpc` are required by the query/loop; `sma_50` and `rsi_14`
may be null. -/
structure ExitCandidate where
  symbol : String
  unrealized_plpc : ℚ
  close : ℚ
  sma_50 : Option ℚ
  rsi_14 : Option ℚ
  ensemble_pct_change : ℚ
deriving DecidableEq, Repr

/-- Python's `opt and x < opt` on an optional float: `None` and `0.0`
are falsy, then the comparison. -/
def truthyGtOf (opt : Option ℚ) (x : ℚ) : Bool :=
  match opt with
  | none => false
  | some s => s != 0 && x < s

/-- Python's `opt and opt < bound` on an optional float. -/
def truthyLtBound (opt : Option ℚ) (bound : ℚ) : Bool :=
  match opt with
  | none => false
  | some r => r != 0 && r < bound

/-- Exit tier evaluation of `evaluate_exits`: Tier 1 TAKE_PROFIT_EXIT
when `unrealized_plpc > 0.01` and (AI < -0.4 or `sma_50` truthy with
`close < sma_50`); Tier 2 PANIC_EXIT when `unrealized_plpc < 0` and
AI < -0.5 and `rsi_14` truthy with `rsi_14 < 40`. -/
def evalExit (e : ExitCandidate) : Option String :=
  if e.unrealized_plpc > 1/100 then
    if e.ensemble_pct_change < -(2/5) ∨ truthyGtOf e.sma_50 e.close = true then
      some "TAKE_PROFIT_EXIT"
    else none
  else if e.unrealized_plpc < 0 then
    if e.ensemble_pct_change < -(1/2) ∧ truthyLtBound e.rsi_14 40 = true then
      some "PANIC_EXIT"
    else none
  else none

/-- Dedup query of `evaluate_exits`: a PENDING signal whose type contains
"EXIT" already exists for the symbol. -/
def hasPendingExit (db : List SignalRow) (symbol : String) : Bool :=
  db.any (fun r =>
    r.symbol == symbol && r.status == "PENDING" && strContains r.signal_type "EXIT")

/-- The INSERT of `evaluate_exits`:
`(symbol, now, signal_type, 'PENDING', 0, NULL, NULL)`. -/
def mkExitSignal (symbol timestamp signal_type : String) : SignalRow :=
  { symbol := symbol, timestamp := timestamp, signal_type := signal_type,
    status := "PENDING", size := some 0, stop_loss := none, atr := none }

/-- Loop body of `evaluate_exits` for one position: skip when a PENDING
exit signal exists for the symbol, otherwise evaluate the exit tiers and
append the exit signal on a match (`now` is the wall-clock timestamp used
by the INSERT). -/
def processExitCandidate (now : String) (db : List SignalRow)
    (e : ExitCandidate) : List SignalRow :=
  if hasPendingExit db e.symbol then db
  else
    match evalExit e with
    | some signal_type => db ++ [mkExitSignal e.symbol now signal_type]
    | none => db

/-- The exit half of one strategy cycle over the open positions. -/
def runExitCycle (now : String) (db : List SignalRow)
    (positions : List ExitCandidate) : List SignalRow :=
  positions.foldl (processExitCandidate now) db

/-- Is this one of the three entry signal types emitted by `run_strategy`? -/
def isEntryType (signal_type : String) : Bool :=
  signal_type == "VWAP_SCALP" || signal_type == "DEEP_VALUE_BUY" ||
    signal_type == "TREND_BUY"

/-- How many entry signal rows carry this (symbol, timestamp)? -/
def countEntryAt (db : List SignalRow) (symbol timestamp : String) : ℕ :=
  (db.filter (fun r =>
    isEntryType r.signal_type && r.symbol == symbol && r.timestamp == timestamp)).length

/-! ### Executor: `src/execution/alpaca_executor.py` -/

/-- Mutable executor state touched by the circuit breaker:
`self.failure_count` and `self.circuit_breaker_tripped`. -/
structure ExecutorState where
  failure_count : ℕ
  tripped : Bool
deriving DecidableEq, Repr

/-- Executor state after `__init__` with a successful API connection. -/
def initExecutorState : ExecutorState :=
  { failure_count := 0, tripped := false }

/-- Outcome of one attempted broker call: success, or an exception whose
string rendering is `err`. -/
inductive CallOutcome where
  | success : CallOutcome
  | failure (err : String) : CallOutcome
deriving DecidableEq, Repr

/-- The criticality classification inside `_check_circuit_breaker`:
the error string contains "401"/"403" (auth) or "500"/"502"/"503"/"504"
(server). -/
def isCriticalError (err : String) : Bool :=
  strContains err "401" || strContains err "403" ||
  strContains err "500" || strContains err "502" ||
  strContains err "503" || strContains err "504"

/-- `_check_circuit_breaker`: a critical error increments the failure
counter and trips the breaker once the counter reaches 3; a non-critical
error changes nothing. -/
def checkCircuitBreaker (s : ExecutorState) (err : String) : ExecutorState :=
  if isCriticalError err then
    let fc := s.failure_count + 1
    { failure_count := fc, tripped := s.tripped || decide (fc ≥ 3) }
  else s

/-- `_safe_api_call`: returns the state after the guarded call together
with whether the broker was actually contacted.  A tripped breaker
short-circuits; success resets a non-zero failure counter; an exception
is classified by `_check_circuit_breaker`. -/
def safeApiCall (s : ExecutorState) (o : CallOutcome) : ExecutorState × Bool :=
  if s.tripped then (s, false)
  else
    match o with
    | .success =>
      if s.failure_count > 0 then ({ s with failure_count := 0 }, true)
      else (s, true)
    | .failure err => (checkCircuitBreaker s err, true)

/-- Folding `_safe_api_call` over a sequence of broker-call outcomes. -/
def runCalls (s : ExecutorState) (os : List CallOutcome) : ExecutorState :=
  os.foldl (fun s o => (safeApiCall s o).1) s

/-- A SIZED row as read by `process_sized_signals`
(`SELECT id, symbol, size, signal_type ... WHERE status = 'SIZED'`). -/
structure SizedSignal where
  id : ℕ
  symbol : String
  size : ℚ
  signal_type : String
deriving DecidableEq, Repr

/-- An order request as passed to `api.submit_order`. -/
structure OrderReq where
  symbol : String
  qty : ℚ
  side : String
  order_type : String
  time_in_force : String
deriving DecidableEq, Repr

/-- The order built by `process_sized_signals` for a SIZED signal:
always a market buy of `float(signal['size'])` shares, whatever the
signal type. -/
def sizedSignalOrder (s : SizedSignal) : OrderReq :=
  { symbol := s.symbol, qty := s.size, side := "buy",
    order_type := "market", time_in_force := "gtc" }

/-- `process_sized_signals` on the success path (every submit_order call
returns an order): for each SIZED signal, one market-buy submission and a
status update to SUBMITTED. -/
def process_sized_signals (signals : List SizedSignal) :
    List (OrderReq × String) :=
  signals.map (fun s => (sizedSignalOrder s, "SUBMITTED"))

/-- Round-half-to-even of a rational to an integer (Python `round`). -/
def roundHalfEvenQ (q : ℚ) : ℤ :=
  let n := Rat.floor q
  let r := q - n
  if r < 1/2 then n
  else if r > 1/2 then n + 1
  else if n % 2 = 0 then n else n + 1

/-- Python `round(q, 2)`. -/
def round2 (q : ℚ) : ℚ :=
  (roundHalfEvenQ (q * 100) : ℚ) / 100

/-- `TRAIL_PERCENT_DEFAULT` at module top of the executor. -/
def TRAIL_PERCENT_DEFAULT : ℚ := 2

/-- Multiplier selection in `_submit_trailing_stop`: default 2.0,
overridden for the three entry types. -/
def trailMultiplier (signal_type : String) : ℚ :=
  if signal_type = "VWAP_SCALP" then 3/2
  else if signal_type = "DEEP_VALUE_BUY" then 2
  else if signal_type = "TREND_BUY" then 3
  else 2

/-- The `trail_price`/`trail_percent` local variables computed at the top
of `_submit_trailing_stop`: ATR-based trail price whenever `atr` is
non-null and `signal_type` is truthy (non-empty), else the percent
fallback. -/
def trailParams (atr : Option ℚ) (signal_type : String) :
    Option ℚ × Option ℚ :=
  match atr with
  | some a =>
    if signal_type ≠ "" then (some (round2 (trailMultiplier signal_type * a)), none)
    else (none, some TRAIL_PERCENT_DEFAULT)
  | none => (none, some TRAIL_PERCENT_DEFAULT)

/-- The trailing-stop fields placed into `order_args`: the first
component is the `trail_price` key (present iff set), the second the
`trail_percent` key; a present key may carry Python `None`, hence the
nested option.  The source gates on `if trail_price:` — float truthiness,
so a zero trail price falls through to the `trail_percent` key. -/
def stopOrderFields (atr : Option ℚ) (signal_type : String) :
    Option ℚ × Option (Option ℚ) :=
  let (trail_price, trail_percent) := trailParams atr signal_type
  match trail_price with
  | some p => if p ≠ 0 then (some p, none) else (none, some trail_percent)
  | none => (none, some trail_percent)

/-- Observable outcome of `_submit_trailing_stop`'s retry loop: the final
signal status written, the number of 3-second `time.sleep(3)` pauses, and
the number of CRITICAL log events. -/
structure StopAttachResult where
  status : String
  pauses : ℕ
  criticalLogs : ℕ
deriving DecidableEq, Repr

/-- The retry loop `for attempt in range(1, max_retries + 1)`:
`outcome attempt` tells whether that attempt's `submit_order` succeeds;
a failed attempt sleeps 3 seconds only when `attempt < max_retries`.
Returns (success, pauses) with `fuel` the number of remaining attempts. -/
def stopAttempts (outcome : ℕ → Bool) (max_retries : ℕ) :
    ℕ → ℕ → ℕ → Bool × ℕ
  | _, pauses, 0 => (false, pauses)
  | attempt, pauses, fuel + 1 =>
    if outcome attempt then (true, pauses)
    else
      let pauses' := if attempt < max_retries then pauses + 1 else pauses
      stopAttempts outcome max_retries (attempt + 1) pauses' fuel

/-- `_submit_trailing_stop` with `max_retries = 3`: EXECUTED on the first
successful attempt; on exhaustion EXECUTED_NO_STOP with one CRITICAL
log. -/
def submit_trailing_stop (outcome : ℕ → Bool) : StopAttachResult :=
  let res := stopAttempts outcome 3 1 0 3
  if res.1 then { status := "EXECUTED", pauses := res.2, criticalLogs := 0 }
  else { status := "EXECUTED_NO_STOP", pauses := res.2, criticalLogs := 1 }

/-! ### Cadence: `src/shared/smart_sleep.py` -/

/-- `SLEEP_ACTIVE`. -/
def SLEEP_ACTIVE : ℤ := 300

/-- `SLEEP_PASSIVE`. -/
def SLEEP_PASSIVE : ℤ := 3600

/-- 09:30:00 New York, in seconds since local midnight. -/
def marketOpenSec : ℚ := 9 * 3600 + 30 * 60

/-- 16:00:00 New York, in seconds since local midnight. -/
def marketCloseSec : ℚ := 16 * 3600

/-- `get_raw_market_status`: the America/New_York instant is given as
`weekday` (Monday = 0) and `t` seconds since local midnight (fractional
seconds allowed).  Returns (is_open, seconds_until_open); Python's
`int()` on the positive difference truncates, i.e. floors. -/
def get_raw_market_status (weekday : ℕ) (t : ℚ) : Bool × Option ℤ :=
  let is_weekday := weekday < 5
  let is_market_hours := marketOpenSec ≤ t ∧ t < marketCloseSec
  if is_weekday ∧ is_market_hours then (true, some 0)
  else if is_weekday ∧ t < marketOpenSec then (false, some (Rat.floor (marketOpenSec - t)))
  else (false, none)

/-- `get_market_status` restricted to its `sleep_seconds` output:
FORCE_AWAKE and FORCE_SLEEP override, else the raw status decides. -/
def get_sleep_seconds (sleep_mode : String) (weekday : ℕ) (t : ℚ) : ℤ :=
  if sleep_mode = "FORCE_AWAKE" then SLEEP_ACTIVE
  else if sleep_mode = "FORCE_SLEEP" then SLEEP_PASSIVE
  else
    match get_raw_market_status weekday t with
    | (true, _) => SLEEP_ACTIVE
    | (false, some s) => min SLEEP_PASSIVE s
    | (false, none) => SLEEP_PASSIVE

/-! ### Forecaster: `src/processor/predictive_engine.py` -/

/-- One row written into `ai_predictions` by `run_predictions`. -/
structure ForecastRow where
  symbol : String
  timestamp : String
  current_price : ℚ
  small_predicted_price : ℚ
  large_predicted_price : ℚ
  ensemble_predicted_price : ℚ
  ensemble_pct_change : ℚ
deriving DecidableEq, Repr

/-- Per-symbol loop body of `run_predictions`: the 0.7/0.3 weighted
ensemble and its percentage change against the current price (zero when
the current price is zero). -/
def mkForecastRow (symbol timestamp : String)
    (current_price p_small p_large : ℚ) : ForecastRow :=
  let ensemble_price := 7/10 * p_large + 3/10 * p_small
  let ensemble_pct :=
    if current_price = 0 then 0
    else (ensemble_price - current_price) / current_price * 100
  { symbol := symbol, timestamp := timestamp, current_price := current_price,
    small_predicted_price := p_small, large_predicted_price := p_large,
    ensemble_predicted_price := ensemble_price,
    ensemble_pct_change := ensemble_pct }

/-- The results list built by `run_predictions` from the fetched context:
one input tuple is (symbol, timestamp, current_price, p_small, p_large). -/
def run_predictions (inputs : List (String × String × ℚ × ℚ × ℚ)) :
    List ForecastRow :=
  inputs.map (fun i => mkForecastRow i.1 i.2.1 i.2.2.1 i.2.2.2.1 i.2.2.2.2)

/-! ### Shared lemmas -/

/-- `Rat.floor` agrees with the mathematical floor `⌊·⌋`. -/
lemma ratFloor_eq_intFloor (q : ℚ) : Rat.floor q = ⌊q⌋ := by
  rw [Rat.floor_def', Rat.floor_def]

lemma runCalls_nil (s : ExecutorState) : runCalls s [] = s := rfl

lemma runCalls_cons (s : ExecutorState) (o : CallOutcome) (os : List CallOutcome) :
    runCalls s (o :: os) = runCalls (safeApiCall s o).1 os := rfl

/-- One guarded call preserves the bound "not tripped implies fewer than 3
consecutive failures". -/
lemma safeApiCall_preserves_bound (s : ExecutorState) (o : CallOutcome)
    (h : s.tripped = false → s.failure_count < 3) :
    (safeApiCall s o).1.tripped = false → (safeApiCall s o).1.failure_count < 3 := by
  rcases s with ⟨fc, tr⟩
  cases tr with
  | true =>
    intro htr
    simp [safeApiCall] at htr
  | false =>
    have hfc3 : fc < 3 := h rfl
    cases o with
    | success =>
      by_cases hfc : fc > 0 <;>
        simp [safeApiCall, hfc] <;> omega
    | failure e =>
      by_cases hc : isCriticalError e <;>
        simp [safeApiCall, checkCircuitBreaker, hc, decide_eq_false_iff_not] <;>
        omega

/-- The failure-count bound holds along any trace. -/
lemma runCalls_count_bound (os : List CallOutcome) :
    ∀ s : ExecutorState, (s.tripped = false → s.failure_count < 3) →
      ((runCalls s os).tripped = false → (runCalls s os).failure_count < 3) := by
  induction os with
  | nil => exact fun s h => h
  | cons o os ih =>
    intro s h
    rw [runCalls_cons]
    exact ih _ (safeApiCall_preserves_bound s o h)

/-! ### C1 -/

/-- C1: the claim says a SIZED exit signal (signal_type containing "EXIT",
size 0) makes the Executor cancel open orders, fetch the position quantity,
submit a market SELL and update to EXECUTED, never submitting a buy.
The code's `process_sized_signals` has no exit branch at all: evaluated at
the failing input — a SIZED PANIC_EXIT signal with size 0 — it submits a
market BUY of 0 shares and moves the signal to SUBMITTED.  The repo's own
test `src/tests/verify_exits.py::test_alpaca_executor_execution` asserts
the cancel/sell/EXECUTED behaviour the claim describes, so the code
contradicts its own tests. -/
theorem exit_signal_processed_as_market_buy :
    process_sized_signals
        [{ id := 1, symbol := "AAPL", size := 0, signal_type := "PANIC_EXIT" }] =
      [({ symbol := "AAPL", qty := 0, side := "buy", order_type := "market",
          time_in_force := "gtc" }, "SUBMITTED")] ∧
    strContains "PANIC_EXIT" "EXIT" = true ∧
    (sizedSignalOrder
        { id := 1, symbol := "AAPL", size := 0, signal_type := "PANIC_EXIT" }).side
      ≠ "sell" := by
  refine ⟨rfl, by decide, by decide⟩

/-! ### C2 -/

/-- C2: circuit-breaker monotonicity.  Within a process: a tripped breaker
makes every guarded call return without contacting the broker and leaves
the state unchanged (so it stays tripped forever); a successful call is
the only way the counter decreases (it resets to 0 and cannot trip the
breaker); a non-critical exception changes nothing; a critical exception
(error text carrying code 401/403/500/502/503/504) increments the counter
by exactly one and trips the breaker exactly when the counter reaches 3;
and along any trace from the initial state, an untripped breaker always
has fewer than 3 consecutive failures recorded. -/
theorem circuit_breaker_monotonicity :
    (∀ (s : ExecutorState) (o : CallOutcome), s.tripped = true →
      safeApiCall s o = (s, false)) ∧
    (∀ (os : List CallOutcome) (s : ExecutorState), s.tripped = true →
      runCalls s os = s) ∧
    (∀ s : ExecutorState, s.tripped = false →
      safeApiCall s .success = ({ failure_count := 0, tripped := false }, true)) ∧
    (∀ (s : ExecutorState) (e : String), s.tripped = false →
      isCriticalError e = false → safeApiCall s (.failure e) = (s, true)) ∧
    (∀ (s : ExecutorState) (e : String), s.tripped = false →
      isCriticalError e = true →
      (safeApiCall s (.failure e)).1.failure_count = s.failure_count + 1 ∧
      ((safeApiCall s (.failure e)).1.tripped = true ↔ 3 ≤ s.failure_count + 1)) ∧
    (∀ os : List CallOutcome, (runCalls initExecutorState os).tripped = false →
      (runCalls initExecutorState os).failure_count < 3) := by
  refine ⟨?_, ?_, ?_, ?_, ?_, ?_⟩
  · intro s o h
    simp [safeApiCall, h]
  · intro os
    induction os with
    | nil => exact fun s _ => rfl
    | cons o os ih =>
      intro s h
      rw [runCalls_cons]
      have ho : safeApiCall s o = (s, false) := by simp [safeApiCall, h]
      rw [ho]
      exact ih s h
  · rintro ⟨fc, tr⟩ h
    cases h
    by_cases hfc : fc > 0
    · simp [safeApiCall, hfc]
    · have : fc = 0 := by omega
      subst this
      simp [safeApiCall]
  · rintro ⟨fc, tr⟩ e h hc
    cases h
    simp [safeApiCall, checkCircuitBreaker, hc]
  · rintro ⟨fc, tr⟩ e h hc
    cases h
    simp [safeApiCall, checkCircuitBreaker, hc, ge_iff_le]
  · intro os
    exact runCalls_count_bound os initExecutorState (fun _ => by decide)

/-- C2 witness: the tripped-guard and critical-increment parts of the
circuit-breaker theorem evaluated at concrete states. -/
theorem circuit_breaker_monotonicity_witness :
    safeApiCall { failure_count := 0, tripped := true } .success =
      ({ failure_count := 0, tripped := true }, false) ∧
    (safeApiCall { failure_count := 2, tripped := false }
        (.failure "APIError: 503 Server Error")).1.failure_count = 2 + 1 := by
  constructor
  · exact circuit_breaker_monotonicity.1 _ _ rfl
  · exact (circuit_breaker_monotonicity.2.2.2.2.1
      { failure_count := 2, tripped := false } "APIError: 503 Server Error"
      rfl (by decide)).1

/-! ### C3 -/

/-- C3: entry evaluation.  For a candidate row with all eight fields
present the tiers are evaluated in order and the first match wins:
VWAP_SCALP iff `pred > 0.3 ∧ volume > volume_sma_20 ∧ close > vwap`;
else DEEP_VALUE_BUY iff `symbol ∈ KINGS_LIST ∧ close < sma_200 ∧
rsi < 30 ∧ pred > 0.5`; else TREND_BUY iff `regime = BULL ∧
close > sma_200 ∧ 35 < rsi < 55 ∧ pred > 0.5 ∧ volume > volume_sma_20`.
A match inserts a PENDING signal with atr copied from the row and null
size; a row with any field missing produces no signal; and the regime is
BEAR iff the most recent SPY row exists with non-null sma_50 and
close < sma_50, else BULL. -/
theorem strategy_tier_evaluation :
    (∀ (regime : Regime) (row : CandidateRow)
        (close volume sma200 rsi vwap atr volSma pred : ℚ),
      row.close = some close → row.volume = some volume →
      row.sma_200 = some sma200 → row.rsi_14 = some rsi →
      row.vwap = some vwap → row.atr_14 = some atr →
      row.volume_sma_20 = some volSma → row.ensemble_pct_change = some pred →
      ((evalCandidate regime row = some "VWAP_SCALP" ↔
          (pred > 3/10 ∧ volume > volSma ∧ close > vwap)) ∧
       (evalCandidate regime row = some "DEEP_VALUE_BUY" ↔
          (¬(pred > 3/10 ∧ volume > volSma ∧ close > vwap) ∧
           (row.symbol ∈ KINGS_LIST ∧ close < sma200 ∧ rsi < 30 ∧ pred > 1/2))) ∧
       (evalCandidate regime row = some "TREND_BUY" ↔
          (¬(pred > 3/10 ∧ volume > volSma ∧ close > vwap) ∧
           ¬(row.symbol ∈ KINGS_LIST ∧ close < sma200 ∧ rsi < 30 ∧ pred > 1/2) ∧
           (regime = .BULL ∧ close > sma200 ∧ 35 < rsi ∧ rsi < 55 ∧
            pred > 1/2 ∧ volume > volSma))) ∧
       (∀ st, evalCandidate regime row = some st →
          mkEntrySignal row st =
            { symbol := row.symbol, timestamp := row.timestamp,
              signal_type := st, status := "PENDING",
              size := none, stop_loss := none, atr := some atr }))) ∧
    (∀ (regime : Regime) (row : CandidateRow),
      row.close = none ∨ row.volume = none ∨ row.sma_200 = none ∨
      row.rsi_14 = none ∨ row.vwap = none ∨ row.atr_14 = none ∨
      row.volume_sma_20 = none ∨ row.ensemble_pct_change = none →
      evalCandidate regime row = none) ∧
    (∀ spyRow : Option (ℚ × Option ℚ),
      get_macro_regime spyRow = .BEAR ↔
        ∃ c s, spyRow = some (c, some s) ∧ c < s) := by
  refine ⟨?_, ?_, ?_⟩
  · intro regime row close volume sma200 rsi vwap atr volSma pred
      h1 h2 h3 h4 h5 h6 h7 h8
    have hrf : rowFields row =
        some (close, volume, sma200, rsi, vwap, atr, volSma, pred) := by
      simp [rowFields, h1, h2, h3, h4, h5, h6, h7, h8]
    have heval : evalCandidate regime row =
        evalTiers regime row.symbol close volume sma200 rsi vwap volSma pred := by
      simp [evalCandidate, hrf]
    refine ⟨?_, ?_, ?_, fun st _ => by simp [mkEntrySignal, h6]⟩
    · rw [heval]
      unfold evalTiers
      split_ifs with t1 t2 t3 <;> simp_all
    · rw [heval]
      unfold evalTiers
      split_ifs with t1 t2 t3 <;> simp_all <;>
        (intro hk hc; linarith [t3.2.2.1])
    · rw [heval]
      unfold evalTiers
      split_ifs with t1 t2 t3 <;> simp_all <;>
        (intro hk hc; linarith [t3.2.2.1])
  · intro regime row h
    rcases row with ⟨sym, ts, c, v, s2, r, w, a, vs, p⟩
    cases c <;> cases v <;> cases s2 <;> cases r <;> cases w <;> cases a <;>
      cases vs <;> cases p <;> simp_all [evalCandidate, rowFields]
  · intro spyRow
    match spyRow with
    | none => simp [get_macro_regime]
    | some (c, none) => simp [get_macro_regime]
    | some (c, some s) =>
      by_cases hcs : c < s
      · simp [get_macro_regime, hcs]
        exact ⟨c, s, ⟨rfl, rfl⟩, hcs⟩
      · simp only [get_macro_regime, if_neg hcs]
        constructor
        · intro h
          exact absurd h (by decide)
        · rintro ⟨c', s', hh, hlt⟩
          simp only [Option.some.injEq, Prod.mk.injEq] at hh
          obtain ⟨rfl, rfl⟩ := hh
          exact absurd hlt hcs

/-- C3 witness: the S1 scenario row (AAPL, close 150, volume 1,200,000,
volume SMA 1,000,000, vwap 149.5, prediction +0.40) evaluates to
VWAP_SCALP. -/
theorem strategy_tier_evaluation_witness :
    evalCandidate .BULL
      { symbol := "AAPL", timestamp := "2025-01-02T15:00:00Z",
        close := some 150, volume := some 1200000, sma_200 := some 100,
        rsi_14 := some 50, vwap := some (299/2), atr_14 := some 2,
        volume_sma_20 := some 1000000, ensemble_pct_change := some (2/5) } =
      some "VWAP_SCALP" :=
  ((strategy_tier_evaluation.1 .BULL _ 150 1200000 100 50 (299/2) 2 1000000 (2/5)
      rfl rfl rfl rfl rfl rfl rfl rfl).1).2
    ⟨by norm_num, by norm_num, by norm_num⟩

/-! ### C4 -/

/-- C4 counterexample: the claim says EVERY pending exit signal is updated
to SIZED with size 0, but the staleness check runs first — a
TAKE_PROFIT_EXIT signal 61 minutes old (with the default 60-minute
maximum age) is EXPIRED, not SIZED. -/
theorem exit_sizing_staleness_counterexample :
    decideSignal defaultRiskConfig (61 * 60) 0 "TAKE_PROFIT_EXIT" none = .expired ∧
    decideSignal defaultRiskConfig (61 * 60) 0 "TAKE_PROFIT_EXIT" none ≠ .sized 0 := by
  have h : decideSignal defaultRiskConfig (61 * 60) 0 "TAKE_PROFIT_EXIT" none =
      .expired := by
    simp only [decideSignal, defaultRiskConfig]
    norm_num
  exact ⟨h, by rw [h]; decide⟩

/-- C4 (amended): for every PENDING non-exit signal that is not stale and
has a latest close `c`, the computed size is `floor(account_size ·
risk_pct / c)` (for positive `c`); the signal becomes SIZED with that size
when it is positive and stays PENDING otherwise; with the defaults a
close of 150 yields size 6; and every PENDING exit signal THAT IS NOT
STALE is updated to SIZED with size 0 whether or not a price exists. -/
theorem risk_sizing :
    (∀ (cfg : RiskConfig) (now ts : ℚ) (st : String) (c : ℚ),
      ¬((now - ts) / 60 > cfg.max_signal_age_minutes) →
      strContains st "EXIT" = false →
      (0 < calculate_position_size c cfg.account_size cfg.risk_pct →
        decideSignal cfg now ts st (some c) =
          .sized (calculate_position_size c cfg.account_size cfg.risk_pct)) ∧
      (¬0 < calculate_position_size c cfg.account_size cfg.risk_pct →
        decideSignal cfg now ts st (some c) = .pending)) ∧
    (∀ c account risk : ℚ, 0 < c →
      calculate_position_size c account risk = ⌊account * risk / c⌋) ∧
    decideSignal defaultRiskConfig 0 0 "TREND_BUY" (some 150) = .sized 6 ∧
    (∀ (cfg : RiskConfig) (now ts : ℚ) (st : String) (close : Option ℚ),
      ¬((now - ts) / 60 > cfg.max_signal_age_minutes) →
      strContains st "EXIT" = true →
      decideSignal cfg now ts st close = .sized 0) := by
  refine ⟨?_, ?_, ?_, ?_⟩
  · intro cfg now ts st c h hex
    constructor <;> intro hsz <;> simp [decideSignal, h, hex, hsz]
  · intro c account risk hc
    simp [calculate_position_size, not_le.mpr hc, ratFloor_eq_intFloor]
  · simp only [decideSignal, defaultRiskConfig, calculate_position_size]
    norm_num [Rat.floor_def', strContains]
    decide
  · intro cfg now ts st close h hex
    simp [decideSignal, h, hex]

/-- C4 witness: a fresh PANIC_EXIT signal with no market data is sized to
0, and a fresh TREND_BUY at close 150 is sized to
`calculate_position_size` of 150 under the defaults. -/
theorem risk_sizing_witness :
    decideSignal defaultRiskConfig 0 0 "PANIC_EXIT" none = .sized 0 ∧
    decideSignal defaultRiskConfig 0 0 "TREND_BUY" (some 150) =
      .sized (calculate_position_size 150 defaultRiskConfig.account_size
        defaultRiskConfig.risk_pct) := by
  constructor
  · exact risk_sizing.2.2.2 defaultRiskConfig 0 0 "PANIC_EXIT" none
      (by norm_num [defaultRiskConfig]) (by decide)
  · exact (risk_sizing.1 defaultRiskConfig 0 0 "TREND_BUY" 150
      (by norm_num [defaultRiskConfig]) (by decide)).1
      (by norm_num [calculate_position_size, defaultRiskConfig, Rat.floor_def'])

/-! ### C10 -/

/-- C10: for every close price `c ≤ 0`, `calculate_position_size` returns
0 regardless of account size and risk fraction, and a non-stale PENDING
non-exit signal whose latest close is `c` stays PENDING (it is never
transitioned to SIZED). -/
theorem nonpositive_close_never_sized :
    ∀ c : ℚ, c ≤ 0 →
      (∀ account risk : ℚ, calculate_position_size c account risk = 0) ∧
      (∀ (cfg : RiskConfig) (now ts : ℚ) (st : String),
        ¬((now - ts) / 60 > cfg.max_signal_age_minutes) →
        strContains st "EXIT" = false →
        decideSignal cfg now ts st (some c) = .pending) := by
  intro c hc
  constructor
  · intro account risk
    simp [calculate_position_size, hc]
  · intro cfg now ts st h hex
    simp [decideSignal, h, hex, calculate_position_size, hc]

/-- C10 witness: close 0 sizes to 0 under the defaults and the signal
stays PENDING. -/
theorem nonpositive_close_never_sized_witness :
    calculate_position_size 0 100000 (1/100) = 0 ∧
    decideSignal defaultRiskConfig 0 0 "TREND_BUY" (some 0) = .pending := by
  constructor
  · exact (nonpositive_close_never_sized 0 le_rfl).1 100000 (1/100)
  · exact (nonpositive_close_never_sized 0 le_rfl).2 defaultRiskConfig 0 0
      "TREND_BUY" (by norm_num [defaultRiskConfig]) (by decide)

/-! ### C5 -/

/-- C5 counterexample: the claim says three 3-second pauses occur when
every stop-submission attempt fails; the loop only sleeps while
`attempt < max_retries`, so an all-fail run pauses exactly twice. -/
theorem stop_retry_pause_counterexample :
    submit_trailing_stop (fun _ => false) =
      { status := "EXECUTED_NO_STOP", pauses := 2, criticalLogs := 1 } ∧
    (submit_trailing_stop (fun _ => false)).pauses ≠ 3 := by
  exact ⟨by decide, by decide⟩

/-- C5 (amended): the stop attachment makes up to 3 attempts with a
3-second pause after each failed attempt other than the last — TWO pauses
when every attempt fails — updates the signal to EXECUTED on the first
successful attempt, and on exhaustion updates to EXECUTED_NO_STOP with
exactly one CRITICAL log. -/
theorem stop_retry_behaviour :
    ∀ o : ℕ → Bool,
      (o 1 = true →
        submit_trailing_stop o =
          { status := "EXECUTED", pauses := 0, criticalLogs := 0 }) ∧
      (o 1 = false → o 2 = true →
        submit_trailing_stop o =
          { status := "EXECUTED", pauses := 1, criticalLogs := 0 }) ∧
      (o 1 = false → o 2 = false → o 3 = true →
        submit_trailing_stop o =
          { status := "EXECUTED", pauses := 2, criticalLogs := 0 }) ∧
      (o 1 = false → o 2 = false → o 3 = false →
        submit_trailing_stop o =
          { status := "EXECUTED_NO_STOP", pauses := 2, criticalLogs := 1 }) := by
  intro o
  have key : stopAttempts o 3 1 0 3 =
      (if o 1 then ((true : Bool), (0 : ℕ)) else
        if o 2 then (true, 1) else
          if o 3 then (true, 2) else (false, 2)) := rfl
  refine ⟨?_, ?_, ?_, ?_⟩ <;> intros <;>
    simp_all [submit_trailing_stop, key]

/-- C5 witness: first attempt fails, second succeeds — one pause, status
EXECUTED. -/
theorem stop_retry_behaviour_witness :
    submit_trailing_stop (fun n => n == 2) =
      { status := "EXECUTED", pauses := 1, criticalLogs := 0 } :=
  (stop_retry_behaviour (fun n => n == 2)).2.1 rfl rfl

/-! ### C6 -/

/-- C6 counterexample: the claim says an unrecognized signal_type falls
back to trail_percent 2.0, but the code only falls back when atr is null
or signal_type is empty; with atr 2 and signal_type PANIC_EXIT it submits
trail_price = round(2.0 · 2, 2) = 4 and no trail_percent. -/
theorem trail_price_fallback_counterexample :
    stopOrderFields (some 2) "PANIC_EXIT" = (some 4, none) ∧
    (stopOrderFields (some 2) "PANIC_EXIT").2 ≠ some (some TRAIL_PERCENT_DEFAULT) := by
  have h : stopOrderFields (some 2) "PANIC_EXIT" = (some 4, none) := by
    simp [stopOrderFields, trailParams, trailMultiplier, TRAIL_PERCENT_DEFAULT]
    norm_num [round2, roundHalfEvenQ, Rat.floor_def']
  exact ⟨h, by rw [h]; simp⟩

/-- C6 (amended): with atr known and signal_type non-empty the stop order
carries trail_price = round(multiplier · atr, 2) and no trail_percent
(whenever that rounded price is nonzero), where the multiplier is 1.5 for
VWAP_SCALP, 2.0 for DEEP_VALUE_BUY, 3.0 for TREND_BUY and 2.0 for every
other non-empty type; with atr unknown or signal_type empty it carries
trail_percent = 2.0 and no trail_price. -/
theorem trail_parameter_selection :
    (∀ (a : ℚ) (st : String), st ≠ "" →
      trailParams (some a) st = (some (round2 (trailMultiplier st * a)), none)) ∧
    (trailMultiplier "VWAP_SCALP" = 3/2 ∧ trailMultiplier "DEEP_VALUE_BUY" = 2 ∧
     trailMultiplier "TREND_BUY" = 3 ∧
     ∀ st, st ≠ "VWAP_SCALP" → st ≠ "DEEP_VALUE_BUY" → st ≠ "TREND_BUY" →
       trailMultiplier st = 2) ∧
    (∀ (a : ℚ) (st : String), st ≠ "" → round2 (trailMultiplier st * a) ≠ 0 →
      stopOrderFields (some a) st = (some (round2 (trailMultiplier st * a)), none)) ∧
    (∀ st, stopOrderFields none st = (none, some (some TRAIL_PERCENT_DEFAULT))) ∧
    (∀ a : ℚ, stopOrderFields (some a) "" = (none, some (some TRAIL_PERCENT_DEFAULT))) := by
  refine ⟨?_, ⟨?_, ?_, ?_, ?_⟩, ?_, ?_, ?_⟩
  · intro a st h
    simp [trailParams, h]
  · simp [trailMultiplier]
  · simp [trailMultiplier]
  · simp [trailMultiplier]
  · intro st h1 h2 h3
    simp [trailMultiplier, h1, h2, h3]
  · intro a st h hnz
    simp [stopOrderFields, trailParams, h, hnz]
  · intro st
    simp [stopOrderFields, trailParams]
  · intro a
    simp [stopOrderFields, trailParams]

/-- C6 witness: VWAP_SCALP with atr 2 submits trail_price
round(1.5 · 2, 2) and no trail_percent. -/
theorem trail_parameter_selection_witness :
    stopOrderFields (some 2) "VWAP_SCALP" =
      (some (round2 (trailMultiplier "VWAP_SCALP" * 2)), none) :=
  trail_parameter_selection.2.2.1 2 "VWAP_SCALP" (by decide)
    (by norm_num [round2, roundHalfEvenQ, trailMultiplier, Rat.floor_def'])

/-! ### C7 -/

/-- C7: every forecast row written by `run_predictions` has
ensemble = 0.7·large + 0.3·small, and pct change
(ensemble − current)/current · 100 when the current price is nonzero and
exactly 0 when it is zero. -/
theorem ensemble_contract :
    ∀ (inputs : List (String × String × ℚ × ℚ × ℚ)) (row : ForecastRow),
      row ∈ run_predictions inputs →
      row.ensemble_predicted_price =
        7/10 * row.large_predicted_price + 3/10 * row.small_predicted_price ∧
      (row.current_price ≠ 0 →
        row.ensemble_pct_change =
          (row.ensemble_predicted_price - row.current_price) /
            row.current_price * 100) ∧
      (row.current_price = 0 → row.ensemble_pct_change = 0) := by
  intro inputs row hmem
  simp only [run_predictions, List.mem_map] at hmem
  obtain ⟨i, _, rfl⟩ := hmem
  refine ⟨rfl, ?_, ?_⟩
  · intro h
    simp only [mkForecastRow] at h ⊢
    rw [if_neg h]
  · intro h
    simp only [mkForecastRow] at h ⊢
    rw [if_pos h]

/-- C7 witness: the forecast row for current price 100, small prediction
110, large prediction 120 satisfies the ensemble equation. -/
theorem ensemble_contract_witness :
    (mkForecastRow "AAPL" "t0" 100 110 120).ensemble_predicted_price =
      7/10 * (mkForecastRow "AAPL" "t0" 100 110 120).large_predicted_price +
      3/10 * (mkForecastRow "AAPL" "t0" 100 110 120).small_predicted_price :=
  (ensemble_contract [("AAPL", "t0", 100, 110, 120)] _
    (by simp [run_predictions])).1

/-! ### C8 -/

/-- C8: the cadence computation returns 300 under FORCE_AWAKE, 3600 under
FORCE_SLEEP; under AUTO it returns 300 on a weekday inside
[09:30, 16:00), min(3600, seconds until 09:30) on a weekday strictly
before 09:30, and 3600 on weekends or at/after 16:00 on a weekday. -/
theorem cadence_sleep_seconds :
    (∀ (w : ℕ) (t : ℚ), get_sleep_seconds "FORCE_AWAKE" w t = 300) ∧
    (∀ (w : ℕ) (t : ℚ), get_sleep_seconds "FORCE_SLEEP" w t = 3600) ∧
    (∀ (w : ℕ) (t : ℚ), w < 5 → marketOpenSec ≤ t → t < marketCloseSec →
      get_sleep_seconds "AUTO" w t = 300) ∧
    (∀ (w : ℕ) (t : ℚ), w < 5 → t < marketOpenSec →
      get_sleep_seconds "AUTO" w t = min 3600 ⌊marketOpenSec - t⌋) ∧
    (∀ (w : ℕ) (t : ℚ), 5 ≤ w → get_sleep_seconds "AUTO" w t = 3600) ∧
    (∀ (w : ℕ) (t : ℚ), w < 5 → marketCloseSec ≤ t →
      get_sleep_seconds "AUTO" w t = 3600) := by
  refine ⟨?_, ?_, ?_, ?_, ?_, ?_⟩
  · intro w t
    simp [get_sleep_seconds, SLEEP_ACTIVE]
  · intro w t
    simp [get_sleep_seconds, SLEEP_PASSIVE]
  · intro w t hw h1 h2
    simp [get_sleep_seconds, get_raw_market_status, hw, h1, h2, SLEEP_ACTIVE]
  · intro w t hw h2
    simp [get_sleep_seconds, get_raw_market_status, hw, not_le.mpr h2, h2,
      SLEEP_PASSIVE, ratFloor_eq_intFloor]
  · intro w t hw
    simp [get_sleep_seconds, get_raw_market_status, Nat.not_lt.mpr hw,
      SLEEP_PASSIVE]
  · intro w t hw h2
    have hno : ¬t < marketOpenSec :=
      not_lt.mpr (le_trans (by norm_num [marketOpenSec, marketCloseSec]) h2)
    simp [get_sleep_seconds, get_raw_market_status, hw, not_lt.mpr h2, hno,
      SLEEP_PASSIVE]

/-- C8 witness: AUTO mode, Wednesday 10:00 New York → 300 seconds. -/
theorem cadence_sleep_seconds_witness :
    get_sleep_seconds "AUTO" 2 (10 * 3600) = 300 :=
  cadence_sleep_seconds.2.2.1 2 (10 * 3600) (by norm_num)
    (by norm_num [marketOpenSec]) (by norm_num [marketCloseSec])

/-! ### C9 helper lemmas -/

lemma hasSignalAt_append_of (db l : List SignalRow) (s t : String)
    (h : hasSignalAt db s t = true) : hasSignalAt (db ++ l) s t = true := by
  unfold hasSignalAt at h ⊢
  rw [List.any_append, h, Bool.true_or]

lemma hasPendingExit_append_of (db l : List SignalRow) (s : String)
    (h : hasPendingExit db s = true) : hasPendingExit (db ++ l) s = true := by
  unfold hasPendingExit at h ⊢
  rw [List.any_append, h, Bool.true_or]

lemma hasSignalAt_append_of_right (db l : List SignalRow) (s t : String)
    (h : hasSignalAt l s t = true) : hasSignalAt (db ++ l) s t = true := by
  unfold hasSignalAt at h ⊢
  rw [List.any_append, h, Bool.or_true]

lemma hasPendingExit_append_of_right (db l : List SignalRow) (s : String)
    (h : hasPendingExit l s = true) : hasPendingExit (db ++ l) s = true := by
  unfold hasPendingExit at h ⊢
  rw [List.any_append, h, Bool.or_true]

lemma processCandidate_shape (regime : Regime) (db : List SignalRow)
    (row : CandidateRow) : ∃ l, processCandidate regime db row = db ++ l := by
  unfold processCandidate
  cases hrf : rowFields row with
  | none => exact ⟨[], by simp⟩
  | some tup =>
    by_cases hd : hasSignalAt db row.symbol row.timestamp
    · exact ⟨[], by simp [hd]⟩
    · cases he : evalCandidate regime row with
      | none => exact ⟨[], by simp [hd, he]⟩
      | some st => exact ⟨[mkEntrySignal row st], by simp [hd, he]⟩

lemma runEntryCycle_cons (regime : Regime) (db : List SignalRow)
    (c : CandidateRow) (cs : List CandidateRow) :
    runEntryCycle regime db (c :: cs) =
      runEntryCycle regime (processCandidate regime db c) cs := rfl

lemma runEntryCycle_shape (regime : Regime) :
    ∀ (cs : List CandidateRow) (db : List SignalRow),
      ∃ l, runEntryCycle regime db cs = db ++ l := by
  intro cs
  induction cs with
  | nil => exact fun db => ⟨[], by simp [runEntryCycle]⟩
  | cons c cs ih =>
    intro db
    obtain ⟨l1, h1⟩ := processCandidate_shape regime db c
    obtain ⟨l2, h2⟩ := ih (processCandidate regime db c)
    refine ⟨l1 ++ l2, ?_⟩
    rw [runEntryCycle_cons, h2, h1, List.append_assoc]

lemma evalCandidate_rowFields (regime : Regime) (row : CandidateRow)
    (st : String) (h : evalCandidate regime row = some st) :
    ∃ tup, rowFields row = some tup := by
  unfold evalCandidate at h
  cases hrf : rowFields row with
  | none => rw [hrf] at h; cases h
  | some tup => exact ⟨tup, rfl⟩

lemma runEntryCycle_covers (regime : Regime) :
    ∀ (cs : List CandidateRow) (db : List SignalRow) (c : CandidateRow)
      (st : String), c ∈ cs → evalCandidate regime c = some st →
      hasSignalAt (runEntryCycle regime db cs) c.symbol c.timestamp = true := by
  intro cs
  induction cs with
  | nil =>
    intro db c st h
    cases h
  | cons c0 cs ih =>
    intro db c st hmem he
    rcases List.mem_cons.mp hmem with rfl | hmem'
    · have h1 : hasSignalAt (processCandidate regime db c) c.symbol
          c.timestamp = true := by
        obtain ⟨tup, hrf⟩ := evalCandidate_rowFields regime c st he
        unfold processCandidate
        rw [hrf]
        by_cases hd : hasSignalAt db c.symbol c.timestamp
        · simp [hd]
        · rw [if_neg hd]
          simp only [he]
          exact hasSignalAt_append_of_right _ _ _ _
            (by simp [hasSignalAt, mkEntrySignal])
      obtain ⟨l, hl⟩ := runEntryCycle_shape regime cs (processCandidate regime db c)
      rw [runEntryCycle_cons, hl]
      exact hasSignalAt_append_of _ _ _ _ h1
    · rw [runEntryCycle_cons]
      exact ih _ c st hmem' he

lemma runEntryCycle_noop (regime : Regime) :
    ∀ (cs : List CandidateRow) (db : List SignalRow),
      (∀ c ∈ cs, ∀ st, evalCandidate regime c = some st →
        hasSignalAt db c.symbol c.timestamp = true) →
      runEntryCycle regime db cs = db := by
  intro cs
  induction cs with
  | nil => intro db _; rfl
  | cons c0 cs ih =>
    intro db h
    have hstep : processCandidate regime db c0 = db := by
      unfold processCandidate
      cases hrf : rowFields c0 with
      | none => rfl
      | some tup =>
        by_cases hd : hasSignalAt db c0.symbol c0.timestamp
        · simp [hd]
        · cases he : evalCandidate regime c0 with
          | none => simp [hd, he]
          | some st => exact absurd (h c0 (List.mem_cons_self c0 cs) st he) hd
    rw [runEntryCycle_cons, hstep]
    exact ih db (fun c hc st he => h c (List.mem_cons_of_mem _ hc) st he)

lemma evalExit_types (e : ExitCandidate) (st : String)
    (h : evalExit e = some st) :
    st = "TAKE_PROFIT_EXIT" ∨ st = "PANIC_EXIT" := by
  unfold evalExit at h
  split_ifs at h <;>
    first
      | (left; exact (Option.some.inj h).symm)
      | (right; exact (Option.some.inj h).symm)
      | cases h

lemma evalExit_strContains (e : ExitCandidate) (st : String)
    (h : evalExit e = some st) : strContains st "EXIT" = true := by
  rcases evalExit_types e st h with rfl | rfl <;> decide

lemma processExitCandidate_shape (now : String) (db : List SignalRow)
    (e : ExitCandidate) : ∃ l, processExitCandidate now db e = db ++ l := by
  unfold processExitCandidate
  by_cases hd : hasPendingExit db e.symbol
  · exact ⟨[], by simp [hd]⟩
  · cases he : evalExit e with
    | none => exact ⟨[], by simp [hd, he]⟩
    | some st => exact ⟨[mkExitSignal e.symbol now st], by simp [hd, he]⟩

lemma runExitCycle_cons (now : String) (db : List SignalRow)
    (e : ExitCandidate) (es : List ExitCandidate) :
    runExitCycle now db (e :: es) =
      runExitCycle now (processExitCandidate now db e) es := rfl

lemma runExitCycle_shape (now : String) :
    ∀ (es : List ExitCandidate) (db : List SignalRow),
      ∃ l, runExitCycle now db es = db ++ l := by
  intro es
  induction es with
  | nil => exact fun db => ⟨[], by simp [runExitCycle]⟩
  | cons e es ih =>
    intro db
    obtain ⟨l1, h1⟩ := processExitCandidate_shape now db e
    obtain ⟨l2, h2⟩ := ih (processExitCandidate now db e)
    refine ⟨l1 ++ l2, ?_⟩
    rw [runExitCycle_cons, h2, h1, List.append_assoc]

lemma runExitCycle_covers (now : String) :
    ∀ (es : List ExitCandidate) (db : List SignalRow) (e : ExitCandidate)
      (st : String), e ∈ es → evalExit e = some st →
      hasPendingExit (runExitCycle now db es) e.symbol = true := by
  intro es
  induction es with
  | nil =>
    intro db e st h
    cases h
  | cons e0 es ih =>
    intro db e st hmem he
    rcases List.mem_cons.mp hmem with rfl | hmem'
    · have h1 : hasPendingExit (processExitCandidate now db e) e.symbol = true := by
        unfold processExitCandidate
        by_cases hd : hasPendingExit db e.symbol
        · simp [hd]
        · rw [if_neg hd]
          simp only [he]
          exact hasPendingExit_append_of_right _ _ _
            (by simp [hasPendingExit, mkExitSignal, evalExit_strContains e st he])
      obtain ⟨l, hl⟩ := runExitCycle_shape now es (processExitCandidate now db e)
      rw [runExitCycle_cons, hl]
      exact hasPendingExit_append_of _ _ _ h1
    · rw [runExitCycle_cons]
      exact ih _ e st hmem' he

lemma runExitCycle_noop (now : String) :
    ∀ (es : List ExitCandidate) (db : List SignalRow),
      (∀ e ∈ es, ∀ st, evalExit e = some st →
        hasPendingExit db e.symbol = true) →
      runExitCycle now db es = db := by
  intro es
  induction es with
  | nil => intro db _; rfl
  | cons e0 es ih =>
    intro db h
    have hstep : processExitCandidate now db e0 = db := by
      unfold processExitCandidate
      by_cases hd : hasPendingExit db e0.symbol
      · simp [hd]
      · cases he : evalExit e0 with
        | none => simp [hd, he]
        | some st => exact absurd (h e0 (List.mem_cons_self e0 es) st he) hd
    rw [runExitCycle_cons, hstep]
    exact ih db (fun e hc st he => h e (List.mem_cons_of_mem _ hc) st he)

lemma countEntryAt_append (db l : List SignalRow) (s t : String) :
    countEntryAt (db ++ l) s t = countEntryAt db s t + countEntryAt l s t := by
  simp [countEntryAt, List.filter_append]

lemma countEntryAt_zero_of_hasSignalAt_false (db : List SignalRow)
    (s t : String) (h : hasSignalAt db s t = false) :
    countEntryAt db s t = 0 := by
  unfold countEntryAt
  rw [List.length_eq_zero, List.filter_eq_nil]
  intro r hr
  have hr' := List.any_eq_false.mp h r hr
  intro hp
  simp only [Bool.and_eq_true, beq_iff_eq] at hp hr'
  exact hr' ⟨hp.1.2, hp.2⟩

lemma countEntryAt_single_le_one (r : SignalRow) (s t : String) :
    countEntryAt [r] s t ≤ 1 := by
  have := List.length_filter_le
    (fun x : SignalRow =>
      isEntryType x.signal_type && x.symbol == s && x.timestamp == t) [r]
  simpa [countEntryAt] using this

lemma countEntryAt_processCandidate (regime : Regime) (db : List SignalRow)
    (row : CandidateRow) (s t : String) (h : countEntryAt db s t ≤ 1) :
    countEntryAt (processCandidate regime db row) s t ≤ 1 := by
  unfold processCandidate
  cases hrf : rowFields row with
  | none => exact h
  | some tup =>
    by_cases hd : hasSignalAt db row.symbol row.timestamp
    · simpa [hd] using h
    · cases he : evalCandidate regime row with
      | none => simpa [hd, he] using h
      | some st =>
        simp only [hd, if_false, he, Bool.false_eq_true]
        rw [countEntryAt_append]
        by_cases hmatch : row.symbol = s ∧ row.timestamp = t
        · obtain ⟨rfl, rfl⟩ := hmatch
          rw [countEntryAt_zero_of_hasSignalAt_false db _ _
            (by simpa using hd)]
          simpa using countEntryAt_single_le_one (mkEntrySignal row st) _ _
        · have hzero : countEntryAt [mkEntrySignal row st] s t = 0 := by
            unfold countEntryAt
            rw [List.length_eq_zero, List.filter_eq_nil]
            intro r hr
            simp only [List.mem_singleton] at hr
            subst hr
            intro hp
            simp only [mkEntrySignal, Bool.and_eq_true, beq_iff_eq] at hp
            exact hmatch ⟨hp.1.2, hp.2⟩
          omega

lemma countEntryAt_runEntryCycle (regime : Regime) :
    ∀ (cs : List CandidateRow) (db : List SignalRow) (s t : String),
      countEntryAt db s t ≤ 1 →
      countEntryAt (runEntryCycle regime db cs) s t ≤ 1 := by
  intro cs
  induction cs with
  | nil => exact fun db s t h => h
  | cons c cs ih =>
    intro db s t h
    rw [runEntryCycle_cons]
    exact ih _ s t (countEntryAt_processCandidate regime db c s t h)

lemma countEntryAt_processExitCandidate (now : String) (db : List SignalRow)
    (e : ExitCandidate) (s t : String) :
    countEntryAt (processExitCandidate now db e) s t = countEntryAt db s t := by
  unfold processExitCandidate
  by_cases hd : hasPendingExit db e.symbol
  · simp [hd]
  · cases he : evalExit e with
    | none => simp [hd, he]
    | some st =>
      rw [if_neg (by simp [hd])]
      simp only [he]
      rw [countEntryAt_append]
      rcases evalExit_types e st he with rfl | rfl <;>
        simp [countEntryAt, mkExitSignal, isEntryType]

lemma countEntryAt_runExitCycle (now : String) :
    ∀ (es : List ExitCandidate) (db : List SignalRow) (s t : String),
      countEntryAt (runExitCycle now db es) s t = countEntryAt db s t := by
  intro es
  induction es with
  | nil => exact fun db s t => rfl
  | cons e es ih =>
    intro db s t
    rw [runExitCycle_cons, ih, countEntryAt_processExitCandidate]

/-! ### C9 -/

/-- C9: strategy-cycle idempotence via dedup.  Re-running the entry cycle
on its own output (unchanged candidates and regime) adds no signal rows,
because a candidate is rejected once any signal row with its
(symbol, timestamp) exists; re-running the exit cycle on its own output
(unchanged positions, any later wall clock) adds no rows, because an exit
candidate is rejected while a PENDING exit signal exists for its symbol;
and both cycles preserve "at most one entry signal row per
(symbol, timestamp)". -/
theorem strategy_cycle_idempotence :
    (∀ (regime : Regime) (db : List SignalRow) (cs : List CandidateRow),
      runEntryCycle regime (runEntryCycle regime db cs) cs =
        runEntryCycle regime db cs) ∧
    (∀ (now now2 : String) (db : List SignalRow) (es : List ExitCandidate),
      runExitCycle now2 (runExitCycle now db es) es = runExitCycle now db es) ∧
    (∀ (regime : Regime) (db : List SignalRow) (cs : List CandidateRow)
      (s t : String), countEntryAt db s t ≤ 1 →
      countEntryAt (runEntryCycle regime db cs) s t ≤ 1) ∧
    (∀ (now : String) (db : List SignalRow) (es : List ExitCandidate)
      (s t : String),
      countEntryAt (runExitCycle now db es) s t = countEntryAt db s t) := by
  refine ⟨?_, ?_, ?_, ?_⟩
  · intro regime db cs
    exact runEntryCycle_noop regime cs _
      (fun c hc st he => runEntryCycle_covers regime cs db c st hc he)
  · intro now now2 db es
    exact runExitCycle_noop now2 es _
      (fun e hc st he => runExitCycle_covers now es db e st hc he)
  · intro regime db cs s t h
    exact countEntryAt_runEntryCycle regime cs db s t h
  · intro now db es s t
    exact countEntryAt_runExitCycle now es db s t

/-- C9 witness: starting from an empty signal table, one entry cycle over
the S1 candidate leaves at most one entry row for (AAPL, t0). -/
theorem strategy_cycle_idempotence_witness :
    countEntryAt
      (runEntryCycle .BULL []
        [{ symbol := "AAPL", timestamp := "2025-01-02T15:00:00Z",
           close := some 150, volume := some 1200000, sma_200 := some 100,
           rsi_14 := some 50, vwap := some (299/2), atr_14 := some 2,
           volume_sma_20 := some 1000000, ensemble_pct_change := some (2/5) }])
      "AAPL" "2025-01-02T15:00:00Z" ≤ 1 :=
  strategy_cycle_idempotence.2.2.1 .BULL []
    [{ symbol := "AAPL", timestamp := "2025-01-02T15:00:00Z",
       close := some 150, volume := some 1200000, sma_200 := some 100,
       rsi_14 := some 50, vwap := some (299/2), atr_14 := some 2,
       volume_sma_20 := some 1000000, ensemble_pct_change := some (2/5) }]
    "AAPL" "2025-01-02T15:00:00Z" (by decide)

end TradingBot
